import Mathlib

/-!
Verification of the BoardJS room/board synchronization subsystem.

The development shallowly embeds the server (`src/server.js`) and the
whiteboard client (`src/unnamed/part_000`) of the repository:

* JS objects used as string-keyed maps (`board.strokes`, the board files
  on disk, the socket registry) are association lists with JS object
  semantics: assignment replaces an existing key in place or appends,
  `delete` removes the key, lookup returns the first (unique) binding.
* JS numbers carried by strokes are rationals (every double is a rational
  and only addition/negation is performed on them); camera arithmetic,
  which uses `Math.exp`, is over the reals.
* `null`/absent distinctions that matter (`socket.userInfo.id` may be
  `null`; `strokeData.id` may be absent, `null`, or a string) are kept:
  a member identity is `Option String`, a stroke-data id is
  `Option (Option String)` (`none` = property absent, `some none` = null,
  `some (some s)` = string `s`).
* `Math.random().toString(36)` is abstracted over the base-36 fraction
  digits of the random double: for a double `r ∈ [0,1)` the string is
  `"0"` when the fraction is empty (r = 0 exactly) and `"0." ++ digits`
  otherwise, with trailing zeros trimmed.  Every finite digit string can
  occur (e.g. `r = 0.5` yields digits `"i"`).
-/

/-- A 2-D point of a stroke, world coordinates (JS doubles, embedded as ℚ). -/
structure Pt where
  x : ℚ
  y : ℚ
deriving DecidableEq, Repr

/-- A stroke as persisted by the server: `{ id, color, size, points }`.
The `id` field may be `null` (`none`) because `add-stroke` spreads the
client-supplied record after the `id:` key. -/
structure Stroke where
  id : Option String
  color : String
  size : ℚ
  points : List Pt
deriving DecidableEq, Repr

/-- The client-supplied stroke payload of `add-stroke`.  Its `id`
property is absent (`none`), `null` (`some none`) or a string. -/
structure StrokeData where
  id : Option (Option String)
  color : String
  size : ℚ
  points : List Pt
deriving DecidableEq, Repr

/-- A member record kept in `board.members`: created on first join with
`{ ...socket.userInfo, status: 'online', socketId: socket.id }`. -/
structure Member where
  id : Option String
  username : String
  status : String
  socketId : String
deriving DecidableEq, Repr

/-- The per-room persisted document created by `create-room`. -/
structure Board where
  roomId : String
  owner : Option String
  createdAt : ℕ
  lastModified : ℕ
  expiryDate : ℕ
  strokes : List (String × Stroke)
  members : List Member
  bannedIPs : List String
deriving DecidableEq, Repr

/-- `socket.userInfo`: identity attached by `authenticate` (initially
`{ id: null, username: 'Anonymous' }`). -/
structure UserInfo where
  id : Option String
  username : String
deriving DecidableEq, Repr

/-! ### JS object-as-map operations -/

/-- Property lookup `l[k]` on a JS object embedded as an association list. -/
def objGet (l : List (String × α)) (k : String) : Option α :=
  (l.find? (fun kv => kv.1 = k)).map (fun kv => kv.2)

/-- Property assignment `l[k] = v`: replaces the binding in place when the
key exists, otherwise appends it (JS property insertion order). -/
def objSet (l : List (String × α)) (k : String) (v : α) : List (String × α) :=
  if (l.find? (fun kv => kv.1 = k)).isSome then
    l.map (fun kv => if kv.1 = k then (k, v) else kv)
  else
    l ++ [(k, v)]

/-- `delete l[k]`: removes the binding for `k` (keys are unique in a JS
object, so filtering is exact). -/
def objDelete (l : List (String × α)) (k : String) : List (String × α) :=
  l.filter (fun kv => kv.1 ≠ k)

/-! ### Board store (`data/boards/<roomId>.json`) -/

/-- The on-disk board store: one JSON document per room id. -/
def Store := List (String × Board)

instance : DecidableEq Store := by
  unfold Store
  infer_instance

/-- `readBoard(roomId)`: parse the room's file, `null` when absent. -/
def readBoard (st : Store) (roomId : String) : Option Board :=
  objGet st roomId

/-- `writeBoard(roomId, boardData)`: stamps `lastModified = Date.now()`
on the document and replaces the room's file. -/
def writeBoard (st : Store) (roomId : String) (b : Board) (now : ℕ) : Store :=
  objSet st roomId { b with lastModified := now }

/-! ### Room id generation -/

/-- Uppercasing as `String.prototype.toUpperCase` acts on the base-36
digit alphabet. -/
def jsToUpper (s : String) : String :=
  String.mk (s.data.map Char.toUpper)

/-- `substring(a, b)`: the characters at indices `[a, b)`. -/
def jsSubstring (s : String) (a b : ℕ) : String :=
  String.mk ((s.data.drop a).take (b - a))

/-- `Math.random().toString(36)` for a random double `r ∈ [0,1)`, as a
function of the base-36 fraction digits of `r` (empty exactly when
`r = 0`, no trailing zero digit otherwise). -/
def randToString36 (fracDigits : String) : String :=
  if fracDigits.isEmpty then "0" else "0." ++ fracDigits

/-- `generateRoomId()`:
`Math.random().toString(36).substring(2, 8).toUpperCase()`. -/
def generateRoomId (fracDigits : String) : String :=
  jsToUpper (jsSubstring (randToString36 fracDigits) 2 8)

/-! ### Server events

Everything a handler sends back out: the acknowledgement callbacks and
the `io.to(room)` / `socket.to(room)` / `targetSocket` emissions. -/

inductive ServerEvent where
  /-- `callback({ success, roomId })` of `create-room`. -/
  | createReply (success : Bool) (roomId : String)
  /-- `callback({ success: true, boardData })` of `join-room`. -/
  | joinOk (boardData : Board)
  /-- `callback({ success: false, message })` of `join-room`. -/
  | joinErr (message : String)
  /-- `io.to(roomId).emit('update-members', members)`. -/
  | updateMembers (roomId : String) (members : List Member)
  /-- `io.to(roomId).emit("new-stroke", { strokeId, strokeData })`. -/
  | newStroke (roomId : String) (strokeId : String) (strokeData : Stroke)
  /-- `io.to(roomId).emit("stroke-deleted", strokeId)`. -/
  | strokeDeleted (roomId : String) (strokeId : String)
  /-- `io.to(roomId).emit("board-cleared")`. -/
  | boardCleared (roomId : String)
  /-- `socket.to(currentRoom).emit('update-cursor', {...data, user})`,
  sent to the room except the sender. -/
  | updateCursor (currentRoom : Option String) (pos : Pt) (user : UserInfo)
  /-- `targetSocket.emit('kicked', message)`. -/
  | kicked (socketId : String) (message : String)
  /-- `targetSocket.disconnect()`. -/
  | disconnectSocket (socketId : String)
deriving DecidableEq, Repr

/-- Live socket registry `io.sockets.sockets`: socket id to the
connection's `handshake.address`. -/
def SocketMap := List (String × String)

/-- `BOARD_EXPIRY_DAYS * 24 * 60 * 60 * 1000` in milliseconds. -/
def boardExpiryMs : ℕ := 14 * 24 * 60 * 60 * 1000

/-! ### `socket.on("create-room")` -/

/-- The `create-room` handler: allocates a fresh board with the caller as
owner and replies `{ success: true, roomId }`. -/
def createRoom (st : Store) (userId : Option String) (fracDigits : String)
    (now : ℕ) : Store × List ServerEvent :=
  let roomId := generateRoomId fracDigits
  let newBoard : Board :=
    { roomId := roomId
      owner := userId
      createdAt := now
      lastModified := now
      expiryDate := now + boardExpiryMs
      strokes := []
      members := []
      bannedIPs := [] }
  (writeBoard st roomId newBoard now, [.createReply true roomId])

/-! ### `socket.on("join-room")` -/

/-- The member upsert of `join-room`: `board.members.find(m => m.id ===
socket.userInfo.id)` is mutated in place when it exists (status online,
socket id replaced), otherwise a fresh record is pushed. -/
def upsertMember (ms : List Member) (u : UserInfo) (sockId : String) :
    List Member :=
  match ms with
  | [] => [{ id := u.id, username := u.username, status := "online", socketId := sockId }]
  | m :: rest =>
    if m.id = u.id then
      { m with status := "online", socketId := sockId } :: rest
    else
      m :: upsertMember rest u sockId

/-- The `join-room` handler.  `addr` is `socket.handshake.address`. -/
def joinRoom (st : Store) (roomId : String) (u : UserInfo) (sockId : String)
    (addr : String) (now : ℕ) : Store × List ServerEvent :=
  match readBoard st roomId with
  | none => (st, [.joinErr "Room not found."])
  | some board =>
    if board.bannedIPs.contains addr then
      (st, [.joinErr "You are banned from this room."])
    else
      let board1 := { board with members := upsertMember board.members u sockId }
      -- `writeBoard` stamps `lastModified` on the same object the callback
      -- and the broadcast then read.
      let written := { board1 with lastModified := now }
      (writeBoard st roomId board1 now,
        [.joinOk written, .updateMembers roomId written.members])

/-! ### `socket.on("add-stroke")` -/

/-- JS truthiness of the `strokeData.id` property (`undefined`, `null`
and `""` are falsy; a non-empty string is truthy). -/
def idTruthy : Option (Option String) → Bool
  | some (some s) => !s.isEmpty
  | _ => false

/-- The `add-stroke` handler.  `fresh` is the `uuidv4()` value drawn when
the client-supplied id is falsy.  The stored record is
`{ id: strokeId, ...strokeData }`, so a *present* `id` property of
`strokeData` overwrites the `id:` key again during the spread. -/
def addStroke (st : Store) (roomId : String) (sd : StrokeData)
    (fresh : String) (now : ℕ) : Store × List ServerEvent :=
  match readBoard st roomId with
  | none => (st, [])
  | some board =>
    let strokeId :=
      match sd.id with
      | some (some s) => if s.isEmpty then fresh else s
      | _ => fresh
    let stored : Stroke :=
      { id := match sd.id with
              | none => some strokeId   -- property absent: spread keeps `id: strokeId`
              | some v => v             -- property present: spread overwrites
        color := sd.color
        size := sd.size
        points := sd.points }
    let board1 := { board with strokes := objSet board.strokes strokeId stored }
    (writeBoard st roomId board1 now, [.newStroke roomId strokeId stored])

/-! ### `socket.on("delete-stroke")` -/

/-- The `delete-stroke` handler: removes the id when present; silent
no-op (no write, no broadcast) when `board.strokes[strokeId]` is absent. -/
def deleteStroke (st : Store) (roomId : String) (strokeId : String)
    (now : ℕ) : Store × List ServerEvent :=
  match readBoard st roomId with
  | none => (st, [])
  | some board =>
    match objGet board.strokes strokeId with
    | none => (st, [])
    | some _ =>
      let board1 := { board with strokes := objDelete board.strokes strokeId }
      (writeBoard st roomId board1 now, [.strokeDeleted roomId strokeId])

/-! ### `socket.on("clear-board")` -/

/-- The `clear-board` handler: empties `strokes` only when the caller's
identity `===` `board.owner`; otherwise nothing happens at all. -/
def clearBoard (st : Store) (roomId : String) (callerId : Option String)
    (now : ℕ) : Store × List ServerEvent :=
  match readBoard st roomId with
  | none => (st, [])
  | some board =>
    if board.owner = callerId then
      let board1 := { board with strokes := [] }
      (writeBoard st roomId board1 now, [.boardCleared roomId])
    else
      (st, [])

/-! ### `socket.on('kick-user')` -/

/-- The in-place mutation `memberToKick.status = 'offline'` applied to
the first member whose `id` matches. -/
def markFirstOffline (ms : List Member) (targetId : String) : List Member :=
  match ms with
  | [] => []
  | m :: rest =>
    if m.id = some targetId then
      { m with status := "offline" } :: rest
    else
      m :: markFirstOffline rest targetId

/-- The `kick-user` handler.  `sockets` resolves a stored `socketId` to a
live connection's address; when the target has no live connection the ban
step is skipped but the status update and rebroadcast still happen. -/
def kickUser (st : Store) (sockets : SocketMap) (roomId : String)
    (callerId : Option String) (userIdToKick : String) (now : ℕ) :
    Store × List ServerEvent :=
  match readBoard st roomId with
  | none => (st, [])
  | some board =>
    if board.owner = callerId then
      match board.members.find? (fun m => m.id = some userIdToKick) with
      | none => (st, [])
      | some memberToKick =>
        let banStep : List String × List ServerEvent :=
          match objGet sockets memberToKick.socketId with
          | some userIP =>
            (board.bannedIPs ++ [userIP],
              [.kicked memberToKick.socketId
                  "You have been kicked and banned from this room.",
                .disconnectSocket memberToKick.socketId])
          | none => (board.bannedIPs, [])
        let board1 :=
          { board with
            bannedIPs := banStep.1
            members := markFirstOffline board.members userIdToKick }
        (writeBoard st roomId board1 now,
          banStep.2 ++ [.updateMembers roomId board1.members])
    else
      (st, [])

/-! ### The connection state and the socket.io dispatch -/

/-- Per-connection server state: `socket.userInfo`, `socket.id`,
`socket.handshake.address` and `socket.currentRoom`. -/
structure ConnState where
  userInfo : UserInfo
  socketId : String
  address : String
  currentRoom : Option String
deriving DecidableEq, Repr

/-- The client-to-server messages of the protocol (the event names the
client emits).  `updateStrokes` is emitted by the whiteboard client on
drag release, undo and redo of a move. -/
inductive ClientMsg where
  | authenticate (userData : UserInfo)
  | createRoom
  | joinRoom (roomId : String)
  | addStroke (roomId : String) (strokeData : StrokeData)
  | deleteStroke (roomId : String) (strokeId : String)
  | updateStrokes (roomId : String) (strokeIds : List String) (dx dy : ℚ)
  | clearBoard (roomId : String)
  | cursorMove (pos : Pt)
  | viewportUpdate
  | kickUser (roomId : String) (userIdToKick : String)
deriving DecidableEq, Repr

/-- The event names for which `io.on("connection")` registers a
`socket.on` handler in `src/server.js`. -/
def registeredServerHandlers : List String :=
  ["authenticate", "create-room", "join-room", "add-stroke",
   "delete-stroke", "clear-board", "cursor-move", "viewport-update",
   "kick-user", "disconnect"]

/-- One step of the server's socket.io event dispatch for an incoming
client message.  `fresh` is the `uuidv4()` draw and `fracDigits` the
`Math.random()` draw consumed by the handler, `now` is `Date.now()`.
An event name with no registered `socket.on` listener is silently
discarded by socket.io: the store, the connection and the outside world
are untouched.  `src/server.js` registers no listener for
`update-strokes` (see `registeredServerHandlers`), so that arm is the
discard arm. -/
def serverDispatch (st : Store) (sockets : SocketMap) (conn : ConnState)
    (msg : ClientMsg) (fresh fracDigits : String) (now : ℕ) :
    Store × ConnState × List ServerEvent :=
  match msg with
  | .authenticate userData => (st, { conn with userInfo := userData }, [])
  | .createRoom =>
    let r := createRoom st conn.userInfo.id fracDigits now
    (r.1, conn, r.2)
  | .joinRoom roomId =>
    let r := joinRoom st roomId conn.userInfo conn.socketId conn.address now
    -- `socket.join(roomId)` / `socket.currentRoom = roomId` run only on
    -- the success path (after the not-found and ban early returns).
    let conn1 :=
      match readBoard st roomId with
      | none => conn
      | some board =>
        if board.bannedIPs.contains conn.address then conn
        else { conn with currentRoom := some roomId }
    (r.1, conn1, r.2)
  | .addStroke roomId strokeData =>
    let r := addStroke st roomId strokeData fresh now
    (r.1, conn, r.2)
  | .deleteStroke roomId strokeId =>
    let r := deleteStroke st roomId strokeId now
    (r.1, conn, r.2)
  | .updateStrokes _ _ _ _ =>
    -- No `socket.on("update-strokes", ...)` registration exists in
    -- `src/server.js`; socket.io drops the event.
    (st, conn, [])
  | .clearBoard roomId =>
    let r := clearBoard st roomId conn.userInfo.id now
    (r.1, conn, r.2)
  | .cursorMove pos =>
    (st, conn, [.updateCursor conn.currentRoom pos conn.userInfo])
  | .viewportUpdate => (st, conn, [])
  | .kickUser roomId userIdToKick =>
    let r := kickUser st sockets roomId conn.userInfo.id userIdToKick now
    (r.1, conn, r.2)

/-- Modelled from the spec: `update-strokes` "translates every point of
every named stroke by `(dx, dy)`; ids not present are skipped silently".
This is the board-side effect the spec requires of the server; it exists
only to be compared with what `serverDispatch` actually does. -/
def specTranslateStrokes (strokes : List (String × Stroke))
    (strokeIds : List String) (dx dy : ℚ) : List (String × Stroke) :=
  strokes.map (fun kv =>
    if strokeIds.contains kv.1 then
      (kv.1, { kv.2 with points := kv.2.points.map (fun p => ⟨p.x + dx, p.y + dy⟩) })
    else kv)

/-- The spec invariant on a board's stroke map: "every key in `strokes`
equals its value's `id`". -/
def strokesKeyInv (strokes : List (String × Stroke)) : Prop :=
  ∀ kv ∈ strokes, kv.2.id = some kv.1

instance (strokes : List (String × Stroke)) : Decidable (strokesKeyInv strokes) := by
  unfold strokesKeyInv
  infer_instance

/-! ### Client: camera / viewport model (`src/unnamed/part_000`)

Camera coordinates are JS doubles driven through `Math.exp`; they are
embedded as reals. -/

/-- A screen- or world-space position of the client. -/
structure Vec2 where
  x : ℝ
  y : ℝ

/-- The client camera `{x, y, zoom}`. -/
structure Camera where
  x : ℝ
  y : ℝ
  zoom : ℝ

/-- `this.minZoom = 0.1`. -/
noncomputable def minZoom : ℝ := 0.1

/-- `this.maxZoom = 6`. -/
noncomputable def maxZoom : ℝ := 6

/-- `screenToWorld`. -/
noncomputable def screenToWorld (c : Camera) (screenPos : Vec2) : Vec2 :=
  { x := (screenPos.x - c.x) / c.zoom
    y := (screenPos.y - c.y) / c.zoom }

/-- `worldToScreen`. -/
noncomputable def worldToScreen (c : Camera) (worldPos : Vec2) : Vec2 :=
  { x := worldPos.x * c.zoom + c.x
    y := worldPos.y * c.zoom + c.y }

/-- The zoom multiplier of one `onWheel` step:
`wheel = deltaY < 0 ? 1 : -1; zoom = Math.exp(wheel * 0.1)`. -/
noncomputable def wheelFactor (deltaY : ℝ) : ℝ :=
  Real.exp ((if deltaY < 0 then 1 else -1) * 0.1)

/-- `onWheel`: recenters the offset with the *unclamped* factor, then
multiplies and clamps the zoom. -/
noncomputable def onWheel (c : Camera) (pos : Vec2) (deltaY : ℝ) : Camera :=
  let zoom := wheelFactor deltaY
  { x := (c.x - pos.x) * zoom + pos.x
    y := (c.y - pos.y) * zoom + pos.y
    zoom := max minZoom (min maxZoom (c.zoom * zoom)) }

/-- Modelled from the spec (claim wording): the multiplier
`exp(sign(deltaY) * 0.1)`, to be compared with `wheelFactor`. -/
noncomputable def specWheelMultiplier (deltaY : ℝ) : ℝ :=
  Real.exp (Real.sign deltaY * 0.1)

/-! ### Client: stroke completion (`onPointerUp`, pen branch) -/

/-- A stroke held in the client's local `this.strokes` map.  Its `id` is
always a string (`'temp-' + Date.now()` at creation). -/
structure ClientStroke where
  id : String
  color : String
  size : ℚ
  points : List Pt
deriving DecidableEq, Repr

/-- The payload the client puts in `add-stroke`: the stroke object
itself (its `id` property is the temporary string id). -/
def toStrokeData (s : ClientStroke) : StrokeData :=
  { id := some (some s.id), color := s.color, size := s.size, points := s.points }

/-- The drawing branch of `onPointerUp`, entered with `isDrawing` set and
`cur = this.currentStroke` (already present in the local map since
pointer-down): a stroke of more than one point is emitted as
`add-stroke` (and recorded in history by the caller); a shorter one is
deleted from the local map and nothing is sent. -/
def pointerUpDrawing (strokes : List (String × ClientStroke))
    (cur : ClientStroke) (roomId : String) :
    List (String × ClientStroke) × List ClientMsg :=
  if 1 < cur.points.length then
    (strokes, [.addStroke roomId (toStrokeData cur)])
  else
    (objDelete strokes cur.id, [])

/-! ### Client: history (undo/redo) -/

/-- A history entry pushed by `pushHistory`.  Stacks are modelled with
the top at the head (JS `push`/`pop` act on the array's far end). -/
inductive HistOp where
  | add (strokeId : String)
  | del (strokeId : String) (strokeData : ClientStroke)
  | move (strokeIds : List String) (dx dy : ℚ)
  | clearOp (before : List (String × ClientStroke))
deriving DecidableEq, Repr

/-- The client state touched by `redo`. -/
structure ClientState where
  strokes : List (String × ClientStroke)
  undoStack : List HistOp
  redoStack : List HistOp
deriving DecidableEq, Repr

/-- `redo()`: pops the redo stack, re-issues the operation's network
message (except for `add`, whose arm is an empty comment in the source
and re-applies nothing), and pushes the entry onto the undo stack.
`this.strokes` is never touched directly. -/
def redo (cs : ClientState) (roomId : String) : ClientState × List ClientMsg :=
  match cs.redoStack with
  | [] => (cs, [])
  | op :: rest =>
    let cs1 := { cs with redoStack := rest, undoStack := op :: cs.undoStack }
    match op with
    | .add _ => (cs1, [])
    | .del strokeId _ => (cs1, [.deleteStroke roomId strokeId])
    | .move strokeIds dx dy => (cs1, [.updateStrokes roomId strokeIds dx dy])
    | .clearOp _ => (cs1, [.clearBoard roomId])

/-! ### Test fixtures (concrete inputs for witnesses and counterexamples) -/

/-- A concrete authenticated user. -/
def uAlice : UserInfo := { id := some "alice", username := "Alice" }

/-- A second concrete user, member of the test room. -/
def uBob : UserInfo := { id := some "bob", username := "Bob" }

/-- A third concrete user, not yet a member of the test room. -/
def uCarol : UserInfo := { id := some "carol", username := "Carol" }

/-- A concrete persisted stroke. -/
def stroke1 : Stroke :=
  { id := some "s1", color := "#000000", size := 5,
    points := [{ x := 0, y := 0 }, { x := 10, y := 10 }] }

/-- A concrete board owned by Alice with Bob online. -/
def board1 : Board :=
  { roomId := "R", owner := some "alice", createdAt := 0, lastModified := 0,
    expiryDate := boardExpiryMs,
    strokes := [("s1", stroke1)],
    members :=
      [{ id := some "alice", username := "Alice", status := "online", socketId := "sockA" },
       { id := some "bob", username := "Bob", status := "online", socketId := "sockB" }],
    bannedIPs := [] }

/-- A store holding exactly the test room. -/
def store1 : Store := [("R", board1)]

/-- The live socket registry for the test room. -/
def sockets1 : SocketMap := [("sockA", "9.9.9.9"), ("sockB", "1.2.3.4")]

/-- Alice's connection, joined to the test room. -/
def connAlice : ConnState :=
  { userInfo := uAlice, socketId := "sockA", address := "9.9.9.9",
    currentRoom := some "R" }

/-! ## Theorems -/

/-! ### JS map and store lemmas -/

theorem objGet_objDelete_self (l : List (String × α)) (k : String) :
    objGet (objDelete l k) k = none := by
  induction l with
  | nil => rfl
  | cons kv rest ih =>
    by_cases h : kv.1 = k
    · simp [objDelete, objGet, h] at ih ⊢
    · simp [objDelete, objGet, h] at ih ⊢

theorem objGet_objSet_self (l : List (String × α)) (k : String) (v : α) :
    objGet (objSet l k v) k = some v := by
  induction l with
  | nil => simp [objSet, objGet]
  | cons kv rest ih =>
    by_cases h : kv.1 = k
    · simp [objSet, objGet, h, List.find?]
    · by_cases hrest : (rest.find? (fun kv => kv.1 = k)).isSome
      · have ih' := ih
        simp [objSet, hrest, objGet, List.find?, h] at ih' ⊢
        simpa [objSet, hrest] using ih'
      · simp [objSet, List.find?, h, hrest, objGet] at ih ⊢
        exact ih

theorem readBoard_writeBoard_self (st : Store) (roomId : String) (b : Board)
    (now : ℕ) :
    readBoard (writeBoard st roomId b now) roomId
      = some { b with lastModified := now } :=
  objGet_objSet_self st roomId _

theorem generateRoomId_length (fracDigits : String) :
    (generateRoomId fracDigits).length = min 6 fracDigits.length := by
  by_cases h : fracDigits.isEmpty
  · have h0 : fracDigits = "" := (String.isEmpty_iff fracDigits).mp h
    subst h0
    rfl
  · show (jsToUpper (jsSubstring (randToString36 fracDigits) 2 8)).length = _
    rw [show randToString36 fracDigits = "0." ++ fracDigits from by
      simp [randToString36, h]]
    show ((((("0." ++ fracDigits).data.drop 2).take 6).map Char.toUpper)).length = _
    rw [show ("0." ++ fracDigits).data = '0' :: '.' :: fracDigits.data from rfl]
    show ((fracDigits.data.take 6).map Char.toUpper).length = _
    rw [List.length_map, List.length_take]
    rfl

/-! ### C2 — create-room -/

/-- C2 (counterexample): `create-room` does *not* always produce a
6-character room id.  `Math.random()` can return exactly `0.5`, whose
base-36 rendering is `"0.i"`; the reply then carries the 1-character
room id `"I"`. -/
theorem create_room_can_return_short_id :
    (createRoom [] (some "alice") "i" 0).2 = [.createReply true "I"] ∧
    ("I").length ≠ 6 := by
  exact ⟨rfl, by decide⟩

/-- C2 (amended): `create-room` always replies `{success: true, roomId}`
where `roomId` has `min 6 d` characters for `d` the number of base-36
fraction digits of the `Math.random()` draw (hence exactly 6 whenever the
draw has at least 6 digits, which is all but a measure-zero set of
doubles), and loading that `roomId` yields a board with empty `strokes`,
empty `members`, and `owner` equal to the caller's identity. -/
theorem create_room_reply_and_fresh_board (st : Store) (userId : Option String)
    (fracDigits : String) (now : ℕ) :
    (createRoom st userId fracDigits now).2
        = [.createReply true (generateRoomId fracDigits)] ∧
    (generateRoomId fracDigits).length = min 6 fracDigits.length ∧
    readBoard (createRoom st userId fracDigits now).1 (generateRoomId fracDigits)
      = some { roomId := generateRoomId fracDigits, owner := userId,
               createdAt := now, lastModified := now,
               expiryDate := now + boardExpiryMs,
               strokes := [], members := [], bannedIPs := [] } := by
  refine ⟨rfl, generateRoomId_length fracDigits, ?_⟩
  exact readBoard_writeBoard_self st (generateRoomId fracDigits) _ now

/-! ### C3 — clear-board by a non-owner -/

/-- C3: a `clear-board` request whose caller identity differs from
`board.owner` leaves the store untouched (so the board's strokes are
unchanged and nothing is persisted) and emits nothing. -/
theorem clear_board_nonowner_is_noop (st : Store) (roomId : String)
    (callerId : Option String) (now : ℕ) (b : Board)
    (hb : readBoard st roomId = some b) (hown : b.owner ≠ callerId) :
    clearBoard st roomId callerId now = (st, []) ∧
    readBoard (clearBoard st roomId callerId now).1 roomId = some b := by
  have hmain : clearBoard st roomId callerId now = (st, []) := by
    unfold clearBoard
    rw [hb]
    simp [hown]
  exact ⟨hmain, by rw [hmain]; exact hb⟩

/-- C3 witness: Bob (not the owner) clears the test room: nothing
happens. -/
theorem clear_board_nonowner_is_noop_witness :
    clearBoard store1 "R" (some "bob") 7 = (store1, []) ∧
    readBoard (clearBoard store1 "R" (some "bob") 7).1 "R" = some board1 :=
  clear_board_nonowner_is_noop store1 "R" (some "bob") 7 board1 rfl (by decide)

/-! ### C5 — delete-stroke idempotence -/

/-- C5: deleting the same stroke id twice yields exactly the same store
as deleting it once, with no second broadcast (the second call is a
complete no-op); and when the id is absent from `strokes` the handler
changes nothing, persists nothing, and emits no `stroke-deleted`. -/
theorem delete_stroke_idempotent (st : Store) (roomId strokeId : String)
    (n1 n2 : ℕ) :
    deleteStroke (deleteStroke st roomId strokeId n1).1 roomId strokeId n2
        = ((deleteStroke st roomId strokeId n1).1, []) ∧
    (∀ b, readBoard st roomId = some b → objGet b.strokes strokeId = none →
      deleteStroke st roomId strokeId n1 = (st, [])) := by
  constructor
  · rcases hb : readBoard st roomId with _ | b
    · have h1 : deleteStroke st roomId strokeId n1 = (st, []) := by
        simp only [deleteStroke, hb]
      rw [h1]
      simp only [deleteStroke, hb]
    · rcases hs : objGet b.strokes strokeId with _ | s
      · have h1 : deleteStroke st roomId strokeId n1 = (st, []) := by
          simp only [deleteStroke, hb, hs]
        rw [h1]
        simp only [deleteStroke, hb, hs]
      · have h1 : deleteStroke st roomId strokeId n1
            = (writeBoard st roomId
                { b with strokes := objDelete b.strokes strokeId } n1,
               [ServerEvent.strokeDeleted roomId strokeId]) := by
          simp only [deleteStroke, hb, hs]
        rw [h1]
        simp only [deleteStroke, readBoard_writeBoard_self,
          objGet_objDelete_self]
  · intro b hb hs
    simp only [deleteStroke, hb, hs]

/-- C5 witness: in the test room, deleting `"s1"` twice equals deleting
it once, and deleting the absent id `"zz"` is a silent no-op. -/
theorem delete_stroke_idempotent_witness :
    deleteStroke (deleteStroke store1 "R" "s1" 1).1 "R" "s1" 2
        = ((deleteStroke store1 "R" "s1" 1).1, []) ∧
    deleteStroke store1 "R" "zz" 3 = (store1, []) :=
  ⟨(delete_stroke_idempotent store1 "R" "s1" 1 2).1,
   (delete_stroke_idempotent store1 "R" "zz" 3 0).2 board1 rfl (by decide)⟩

/-! ### Member-list lemmas -/

theorem find?_markFirstOffline (ms : List Member) (t : String) (mk : Member)
    (h : ms.find? (fun m => m.id = some t) = some mk) :
    (markFirstOffline ms t).find? (fun m => m.id = some t)
      = some { mk with status := "offline" } := by
  induction ms with
  | nil => simp [List.find?] at h
  | cons m rest ih =>
    by_cases hm : m.id = some t
    · rw [List.find?_cons_of_pos _ (by simpa using hm)] at h
      have hmk : m = mk := Option.some.inj h
      subst hmk
      show List.find? _ (markFirstOffline (m :: rest) t) = _
      rw [show markFirstOffline (m :: rest) t
          = { m with status := "offline" } :: rest from by
        simp [markFirstOffline, hm]]
      rw [List.find?_cons_of_pos _ (by simpa using hm)]
    · rw [List.find?_cons_of_neg _ (by simpa using hm)] at h
      rw [show markFirstOffline (m :: rest) t = m :: markFirstOffline rest t from by
        simp [markFirstOffline, hm]]
      rw [List.find?_cons_of_neg _ (by simpa using hm)]
      exact ih h

theorem upsert_find_self (ms : List Member) (u : UserInfo) (s : String) :
    ∃ m, (upsertMember ms u s).find? (fun mm => mm.id = u.id) = some m ∧
      m.status = "online" ∧ m.socketId = s ∧ m.id = u.id := by
  induction ms with
  | nil =>
    refine ⟨⟨u.id, u.username, "online", s⟩, ?_, rfl, rfl, rfl⟩
    rw [show upsertMember [] u s = [⟨u.id, u.username, "online", s⟩] from rfl]
    rw [List.find?_cons_of_pos _ (by simp)]
  | cons m rest ih =>
    by_cases hm : m.id = u.id
    · refine ⟨{ m with status := "online", socketId := s }, ?_, rfl, rfl, hm⟩
      rw [show upsertMember (m :: rest) u s
          = { m with status := "online", socketId := s } :: rest from by
        simp [upsertMember, hm]]
      rw [List.find?_cons_of_pos _ (by simpa using hm)]
    · obtain ⟨mm, hfind, h1, h2, h3⟩ := ih
      refine ⟨mm, ?_, h1, h2, h3⟩
      rw [show upsertMember (m :: rest) u s = m :: upsertMember rest u s from by
        simp [upsertMember, hm]]
      rw [List.find?_cons_of_neg _ (by simpa using hm)]
      exact hfind

theorem upsert_length_of_mem (ms : List Member) (u : UserInfo) (s : String)
    (h : ∃ x ∈ ms, x.id = u.id) :
    (upsertMember ms u s).length = ms.length := by
  induction ms with
  | nil => simp at h
  | cons m rest ih =>
    by_cases hm : m.id = u.id
    · simp [upsertMember, hm]
    · obtain ⟨x, hx, hid⟩ := h
      rcases List.mem_cons.mp hx with hxm | hxr
      · exact absurd (hxm ▸ hid) hm
      · simp [upsertMember, hm, ih ⟨x, hxr, hid⟩]

theorem upsert_countP_of_mem (ms : List Member) (u : UserInfo) (s : String)
    (h : ∃ x ∈ ms, x.id = u.id) :
    (upsertMember ms u s).countP (fun mm => mm.id = u.id)
      = ms.countP (fun mm => mm.id = u.id) := by
  induction ms with
  | nil => simp at h
  | cons m rest ih =>
    by_cases hm : m.id = u.id
    · simp [upsertMember, hm, List.countP_cons]
    · obtain ⟨x, hx, hid⟩ := h
      rcases List.mem_cons.mp hx with hxm | hxr
      · exact absurd (hxm ▸ hid) hm
      · simp [upsertMember, hm, List.countP_cons, ih ⟨x, hxr, hid⟩]

/-! ### C1 — update-strokes on the server -/

/-- C1 (code bug): the server registers no handler for the
`update-strokes` event its own client emits and depends on, so a fully
well-formed move request from a joined client changes nothing: the store
is byte-identical, no `strokes-updated` (or any other) event is emitted,
and the persisted board differs from the translated board the spec
requires. -/
theorem update_strokes_has_no_server_handler :
    serverDispatch store1 sockets1 connAlice
        (.updateStrokes "R" ["s1"] 5 (-3)) "F" "abcdef" 99
      = (store1, connAlice, []) ∧
    specTranslateStrokes board1.strokes ["s1"] 5 (-3) ≠ board1.strokes ∧
    "update-strokes" ∉ registeredServerHandlers :=
  ⟨rfl,
   by norm_num [specTranslateStrokes, board1, stroke1, Pt.mk.injEq,
     Stroke.mk.injEq],
   by decide⟩

/-! ### C6 — the strokes key/id invariant under add-stroke -/

/-- C6 (code bug): `add-stroke` stores `{ id: strokeId, ...strokeData }`,
so a *present* falsy `id` property (here the empty string) survives the
spread and overwrites the freshly generated key: the stroke is stored
under `"FRESH-UUID"` but carries `id: ""`, breaking the invariant that
every key in `strokes` equals its value's `id` (which the fixture board
satisfies beforehand). -/
theorem add_stroke_empty_id_breaks_key_invariant :
    strokesKeyInv board1.strokes ∧
    (∃ b1, readBoard (addStroke store1 "R"
          { id := some (some ""), color := "#ff0000", size := 3,
            points := [{ x := 1, y := 2 }] } "FRESH-UUID" 4).1 "R"
        = some b1 ∧
      ¬ strokesKeyInv b1.strokes) := by
  refine ⟨by decide, ⟨_, rfl, by decide⟩⟩

/-! ### C4 — kick-user bans the live connection's address -/

/-- C4: when the owner kicks a member who has a live connection, the
connection's address is appended to `bannedIPs` in the persisted board,
the target member's record (the first with the target id) has status
`offline`, the membership list is rebroadcast, and any subsequent
`join-room` from that address is refused with the banned message and
leaves the store untouched. -/
theorem kick_user_bans_ip_and_blocks_rejoin
    (st : Store) (sockets : SocketMap) (roomId : String)
    (callerId : Option String) (targetId : String) (now : ℕ)
    (b : Board) (mk : Member) (addr : String)
    (hb : readBoard st roomId = some b)
    (hown : b.owner = callerId)
    (hfind : b.members.find? (fun m => m.id = some targetId) = some mk)
    (haddr : objGet sockets mk.socketId = some addr) :
    ∃ b1,
      readBoard (kickUser st sockets roomId callerId targetId now).1 roomId
          = some b1 ∧
      addr ∈ b1.bannedIPs ∧
      b1.members.find? (fun m => m.id = some targetId)
          = some { mk with status := "offline" } ∧
      ServerEvent.updateMembers roomId b1.members
          ∈ (kickUser st sockets roomId callerId targetId now).2 ∧
      (∀ (u : UserInfo) (sockId : String) (n2 : ℕ),
        joinRoom (kickUser st sockets roomId callerId targetId now).1
            roomId u sockId addr n2
          = ((kickUser st sockets roomId callerId targetId now).1,
             [.joinErr "You are banned from this room."])) := by
  have hkick : kickUser st sockets roomId callerId targetId now
      = (writeBoard st roomId
          { b with
            bannedIPs := b.bannedIPs ++ [addr]
            members := markFirstOffline b.members targetId } now,
         [.kicked mk.socketId "You have been kicked and banned from this room.",
          .disconnectSocket mk.socketId,
          .updateMembers roomId (markFirstOffline b.members targetId)]) := by
    simp [kickUser, hb, hown, hfind, haddr]
  refine ⟨{ b with
      bannedIPs := b.bannedIPs ++ [addr]
      members := markFirstOffline b.members targetId
      lastModified := now }, ?_, ?_, ?_, ?_, ?_⟩
  · rw [hkick]
    exact readBoard_writeBoard_self st roomId _ now
  · simp
  · exact find?_markFirstOffline b.members targetId mk hfind
  · rw [hkick]
    simp
  · intro u sockId n2
    rw [hkick]
    have hread := readBoard_writeBoard_self st roomId
      { b with
        bannedIPs := b.bannedIPs ++ [addr]
        members := markFirstOffline b.members targetId } now
    simp [joinRoom, hread]

/-- C4 witness: Alice (owner) kicks Bob, whose live connection is at
`1.2.3.4`; Carol can no longer join from that address. -/
theorem kick_user_bans_ip_and_blocks_rejoin_witness :
    readBoard store1 "R" = some board1 ∧
    board1.owner = some "alice" ∧
    board1.members.find? (fun m => m.id = some "bob")
      = some { id := some "bob", username := "Bob", status := "online",
               socketId := "sockB" } ∧
    objGet sockets1 "sockB" = some "1.2.3.4" ∧
    (∃ b1,
      readBoard (kickUser store1 sockets1 "R" (some "alice") "bob" 50).1 "R"
          = some b1 ∧
      "1.2.3.4" ∈ b1.bannedIPs ∧
      b1.members.find? (fun m => m.id = some "bob")
          = some { id := some "bob", username := "Bob", status := "offline",
                   socketId := "sockB" } ∧
      ServerEvent.updateMembers "R" b1.members
          ∈ (kickUser store1 sockets1 "R" (some "alice") "bob" 50).2 ∧
      (∀ (u : UserInfo) (sockId : String) (n2 : ℕ),
        joinRoom (kickUser store1 sockets1 "R" (some "alice") "bob" 50).1
            "R" u sockId "1.2.3.4" n2
          = ((kickUser store1 sockets1 "R" (some "alice") "bob" 50).1,
             [.joinErr "You are banned from this room."]))) :=
  ⟨rfl, rfl, by decide, rfl,
   kick_user_bans_ip_and_blocks_rejoin store1 sockets1 "R" (some "alice")
     "bob" 50 board1
     ⟨some "bob", "Bob", "online", "sockB"⟩ "1.2.3.4"
     rfl rfl (by decide) rfl⟩

/-! ### C7 — joining twice with the same member id -/

/-- C7: a second `join-room` with the same member id updates the existing
record (status online, socket id replaced) instead of appending a second
one: the membership list keeps its length and its number of records with
that id. -/
theorem join_twice_keeps_single_member
    (st : Store) (roomId : String) (u : UserInfo)
    (s1 s2 addr1 addr2 : String) (n1 n2 : ℕ) (b : Board)
    (hb : readBoard st roomId = some b)
    (hban1 : b.bannedIPs.contains addr1 = false)
    (hban2 : b.bannedIPs.contains addr2 = false) :
    ∃ b1 b2,
      readBoard (joinRoom st roomId u s1 addr1 n1).1 roomId = some b1 ∧
      readBoard (joinRoom (joinRoom st roomId u s1 addr1 n1).1
          roomId u s2 addr2 n2).1 roomId = some b2 ∧
      b2.members.length = b1.members.length ∧
      b2.members.countP (fun mm => mm.id = u.id)
        = b1.members.countP (fun mm => mm.id = u.id) ∧
      (∃ m, b2.members.find? (fun mm => mm.id = u.id) = some m ∧
        m.status = "online" ∧ m.socketId = s2) := by
  have h1 : joinRoom st roomId u s1 addr1 n1
      = (writeBoard st roomId
          { b with members := upsertMember b.members u s1 } n1,
         [.joinOk
            { b with
              members := upsertMember b.members u s1
              lastModified := n1 },
          .updateMembers roomId (upsertMember b.members u s1)]) := by
    have hb1 : addr1 ∉ b.bannedIPs := by simpa using hban1
    simp [joinRoom, hb, hb1]
  have hread1 := readBoard_writeBoard_self st roomId
    { b with members := upsertMember b.members u s1 } n1
  have h2 : joinRoom (joinRoom st roomId u s1 addr1 n1).1 roomId u s2 addr2 n2
      = (writeBoard (joinRoom st roomId u s1 addr1 n1).1 roomId
          { b with
            members := upsertMember (upsertMember b.members u s1) u s2
            lastModified := n1 } n2,
         [.joinOk
            { b with
              members := upsertMember (upsertMember b.members u s1) u s2
              lastModified := n2 },
          .updateMembers roomId
            (upsertMember (upsertMember b.members u s1) u s2)]) := by
    have hb2 : addr2 ∉ b.bannedIPs := by simpa using hban2
    rw [h1]
    simp [joinRoom, hread1, hb2]
  have hmem : ∃ x ∈ upsertMember b.members u s1, x.id = u.id := by
    obtain ⟨m, hfind, _, _, hid⟩ := upsert_find_self b.members u s1
    exact ⟨m, List.mem_of_find?_eq_some hfind, hid⟩
  refine ⟨{ b with
      members := upsertMember b.members u s1
      lastModified := n1 },
    { b with
      members := upsertMember (upsertMember b.members u s1) u s2
      lastModified := n2 }, ?_, ?_, ?_, ?_, ?_⟩
  · rw [h1]
    exact hread1
  · rw [h2]
    have := readBoard_writeBoard_self (joinRoom st roomId u s1 addr1 n1).1
      roomId
      { b with
        members := upsertMember (upsertMember b.members u s1) u s2
        lastModified := n1 } n2
    exact this
  · exact upsert_length_of_mem (upsertMember b.members u s1) u s2 hmem
  · exact upsert_countP_of_mem (upsertMember b.members u s1) u s2 hmem
  · obtain ⟨m, hfind, hst, hsock, hid⟩ :=
      upsert_find_self (upsertMember b.members u s1) u s2
    exact ⟨m, hfind, hst, hsock⟩

/-- C7 witness: Carol joins the test room twice; the board ends with a
single Carol record, online, bound to her second socket. -/
theorem join_twice_keeps_single_member_witness :
    readBoard store1 "R" = some board1 ∧
    board1.bannedIPs.contains "7.7.7.7" = false ∧
    (∃ b1 b2,
      readBoard (joinRoom store1 "R" uCarol "sockC1" "7.7.7.7" 10).1 "R"
          = some b1 ∧
      readBoard (joinRoom (joinRoom store1 "R" uCarol "sockC1" "7.7.7.7" 10).1
          "R" uCarol "sockC2" "7.7.7.7" 11).1 "R" = some b2 ∧
      b2.members.length = b1.members.length ∧
      b2.members.countP (fun mm => mm.id = uCarol.id)
        = b1.members.countP (fun mm => mm.id = uCarol.id) ∧
      (∃ m, b2.members.find? (fun mm => mm.id = uCarol.id) = some m ∧
        m.status = "online" ∧ m.socketId = "sockC2")) :=
  ⟨rfl, rfl,
   join_twice_keeps_single_member store1 "R" uCarol "sockC1" "sockC2"
     "7.7.7.7" "7.7.7.7" 10 11 board1 rfl rfl rfl⟩

/-! ### C8 — wheel zoom -/

/-- C8 (counterexample): scrolling with `deltaY = 5` multiplies the zoom
by `exp(-0.1)` (the code maps `deltaY ≥ 0` to `wheel = -1`), not by
`exp(sign(deltaY) * 0.1) = exp(0.1)` as claimed: the claim has the
direction inverted. -/
theorem wheel_zoom_multiplier_sign_flipped :
    (onWheel { x := 0, y := 0, zoom := 1 } { x := 0, y := 0 } 5).zoom
      ≠ 1 * specWheelMultiplier 5 := by
  have hf : wheelFactor 5 = Real.exp (-0.1) := by
    unfold wheelFactor
    rw [if_neg (by norm_num : ¬ (5 : ℝ) < 0)]
    norm_num
  have hz : (onWheel { x := 0, y := 0, zoom := 1 } { x := 0, y := 0 } 5).zoom
      = Real.exp (-0.1) := by
    show max minZoom (min maxZoom ((1 : ℝ) * wheelFactor 5)) = Real.exp (-0.1)
    rw [hf, one_mul]
    have h1 : Real.exp (-0.1) ≤ maxZoom := by
      have h2 := Real.exp_le_exp.mpr (show (-0.1 : ℝ) ≤ 0 by norm_num)
      rw [Real.exp_zero] at h2
      unfold maxZoom
      linarith
    have h3 : minZoom ≤ Real.exp (-0.1) := by
      have h4 := Real.add_one_le_exp (-0.1 : ℝ)
      unfold minZoom
      linarith
    rw [min_eq_right h1, max_eq_right h3]
  have hs : specWheelMultiplier 5 = Real.exp 0.1 := by
    unfold specWheelMultiplier
    rw [Real.sign_of_pos (by norm_num : (0 : ℝ) < 5)]
    norm_num
  rw [hz, hs, one_mul]
  intro h
  have h5 := Real.exp_eq_exp.mp h
  norm_num at h5

/-- C8 (amended): a wheel step multiplies the zoom by `exp(0.1)` when
`deltaY < 0` and by `exp(-0.1)` otherwise (the inverse of the claimed
`exp(sign(deltaY) * 0.1)`), then clamps into `[minZoom, maxZoom]`; the
world point under the pointer maps to the same screen position whenever
the new zoom is not clamped (under clamping the offset, already updated
with the unclamped factor, lets the anchor drift). -/
theorem onWheel_zoom_anchored_and_clamped (c : Camera) (pos : Vec2)
    (deltaY : ℝ) :
    (onWheel c pos deltaY).zoom
        = max minZoom (min maxZoom (c.zoom * wheelFactor deltaY)) ∧
    wheelFactor deltaY
        = (if deltaY < 0 then Real.exp 0.1 else Real.exp (-0.1)) ∧
    minZoom ≤ (onWheel c pos deltaY).zoom ∧
    (onWheel c pos deltaY).zoom ≤ maxZoom ∧
    ((minZoom ≤ c.zoom * wheelFactor deltaY ∧
        c.zoom * wheelFactor deltaY ≤ maxZoom) →
      worldToScreen (onWheel c pos deltaY) (screenToWorld c pos) = pos) := by
  refine ⟨rfl, ?_, ?_, ?_, ?_⟩
  · unfold wheelFactor
    by_cases h : deltaY < 0
    · rw [if_pos h, if_pos h]
      norm_num
    · rw [if_neg h, if_neg h]
      norm_num
  · exact le_max_left _ _
  · show max minZoom (min maxZoom (c.zoom * wheelFactor deltaY)) ≤ maxZoom
    exact max_le (by unfold minZoom maxZoom; norm_num) (min_le_left _ _)
  · rintro ⟨hmin, hmax⟩
    have hclamp : (onWheel c pos deltaY).zoom = c.zoom * wheelFactor deltaY := by
      show max minZoom (min maxZoom (c.zoom * wheelFactor deltaY)) = _
      rw [min_eq_right hmax, max_eq_right hmin]
    have hfpos : 0 < wheelFactor deltaY := Real.exp_pos _
    have hzpos : 0 < c.zoom := by
      by_contra hle
      push_neg at hle
      have h6 : c.zoom * wheelFactor deltaY ≤ 0 :=
        mul_nonpos_of_nonpos_of_nonneg hle hfpos.le
      have h7 : (0.1 : ℝ) ≤ c.zoom * wheelFactor deltaY := by
        unfold minZoom at hmin
        exact hmin
      linarith
    have hzne : c.zoom ≠ 0 := ne_of_gt hzpos
    have hext : ∀ (a b : Vec2), a.x = b.x → a.y = b.y → a = b := by
      intro a b hx hy
      cases a
      cases b
      cases hx
      cases hy
      rfl
    apply hext
    · show (screenToWorld c pos).x * (onWheel c pos deltaY).zoom
          + (onWheel c pos deltaY).x = pos.x
      rw [hclamp]
      show ((pos.x - c.x) / c.zoom) * (c.zoom * wheelFactor deltaY)
          + ((c.x - pos.x) * wheelFactor deltaY + pos.x) = pos.x
      field_simp
      ring
    · show (screenToWorld c pos).y * (onWheel c pos deltaY).zoom
          + (onWheel c pos deltaY).y = pos.y
      rw [hclamp]
      show ((pos.y - c.y) / c.zoom) * (c.zoom * wheelFactor deltaY)
          + ((c.y - pos.y) * wheelFactor deltaY + pos.y) = pos.y
      field_simp
      ring

/-- C8 witness: one zoom-in step at zoom 1 is unclamped (its factor
`exp 0.1` lies in `[0.1, 6]`), and the world point under the pointer
`(10, 20)` stays at `(10, 20)` on screen. -/
theorem onWheel_zoom_anchored_and_clamped_witness :
    minZoom ≤ (1 : ℝ) * wheelFactor (-1) ∧
    (1 : ℝ) * wheelFactor (-1) ≤ maxZoom ∧
    worldToScreen (onWheel { x := 3, y := 4, zoom := 1 } { x := 10, y := 20 } (-1))
        (screenToWorld { x := 3, y := 4, zoom := 1 } { x := 10, y := 20 })
      = { x := 10, y := 20 } := by
  have hf : wheelFactor (-1) = Real.exp 0.1 := by
    unfold wheelFactor
    rw [if_pos (by norm_num : (-1 : ℝ) < 0)]
    norm_num
  have h1 : minZoom ≤ (1 : ℝ) * wheelFactor (-1) := by
    rw [hf, one_mul]
    have h3 := Real.add_one_le_exp (0.1 : ℝ)
    unfold minZoom
    linarith
  have h2 : (1 : ℝ) * wheelFactor (-1) ≤ maxZoom := by
    rw [hf, one_mul]
    have h4 : Real.exp 0.1 ≤ Real.exp 1 := Real.exp_le_exp.mpr (by norm_num)
    have h5 := Real.exp_one_lt_d9
    unfold maxZoom
    linarith
  exact ⟨h1, h2,
    (onWheel_zoom_anchored_and_clamped ⟨3, 4, 1⟩ ⟨10, 20⟩ (-1)).2.2.2.2 ⟨h1, h2⟩⟩

/-! ### C9 — short pen strokes are discarded locally -/

/-- C9: completing a pen stroke with fewer than 2 points removes it from
the local strokes map and sends nothing; a stroke with at least 2 points
is sent via `add-stroke` (and the local map keeps it). -/
theorem pointer_up_discards_short_strokes
    (strokes : List (String × ClientStroke)) (cur : ClientStroke)
    (roomId : String) :
    (cur.points.length < 2 →
      (pointerUpDrawing strokes cur roomId).2 = [] ∧
      objGet (pointerUpDrawing strokes cur roomId).1 cur.id = none) ∧
    (2 ≤ cur.points.length →
      (pointerUpDrawing strokes cur roomId).2
        = [.addStroke roomId (toStrokeData cur)] ∧
      (pointerUpDrawing strokes cur roomId).1 = strokes) := by
  constructor
  · intro h
    have hnot : ¬ 1 < cur.points.length := by omega
    exact ⟨by simp [pointerUpDrawing, hnot],
      by simp [pointerUpDrawing, hnot, objGet_objDelete_self]⟩
  · intro h
    have hlt : 1 < cur.points.length := by omega
    exact ⟨by simp [pointerUpDrawing, hlt], by simp [pointerUpDrawing, hlt]⟩

/-- C9 witness: a 1-point stroke is dropped from the local map with no
message; a 2-point stroke is sent as `add-stroke`. -/
theorem pointer_up_discards_short_strokes_witness :
    ((pointerUpDrawing
        [("temp-1", ⟨"temp-1", "#000000", 5, [{ x := 0, y := 0 }]⟩)]
        ⟨"temp-1", "#000000", 5, [{ x := 0, y := 0 }]⟩ "R").2 = [] ∧
      objGet (pointerUpDrawing
        [("temp-1", ⟨"temp-1", "#000000", 5, [{ x := 0, y := 0 }]⟩)]
        ⟨"temp-1", "#000000", 5, [{ x := 0, y := 0 }]⟩ "R").1 "temp-1"
        = none) ∧
    ((pointerUpDrawing
        [("temp-2", ⟨"temp-2", "#000000", 5,
          [{ x := 0, y := 0 }, { x := 1, y := 1 }]⟩)]
        ⟨"temp-2", "#000000", 5,
          [{ x := 0, y := 0 }, { x := 1, y := 1 }]⟩ "R").2
      = [.addStroke "R" (toStrokeData ⟨"temp-2", "#000000", 5,
          [{ x := 0, y := 0 }, { x := 1, y := 1 }]⟩)]) :=
  ⟨(pointer_up_discards_short_strokes
      [("temp-1", ⟨"temp-1", "#000000", 5, [{ x := 0, y := 0 }]⟩)]
      ⟨"temp-1", "#000000", 5, [{ x := 0, y := 0 }]⟩ "R").1 (by decide),
   ((pointer_up_discards_short_strokes
      [("temp-2", ⟨"temp-2", "#000000", 5,
        [{ x := 0, y := 0 }, { x := 1, y := 1 }]⟩)]
      ⟨"temp-2", "#000000", 5,
        [{ x := 0, y := 0 }, { x := 1, y := 1 }]⟩ "R").2 (by decide)).1⟩

/-! ### C10 — redo of an `add` entry -/

/-- C10: `redo` on a stack whose top entry is an `add` emits no network
message, leaves the local strokes map untouched (the added stroke is not
re-applied), and only moves the entry onto the undo stack. -/
theorem redo_add_reapplies_nothing (cs : ClientState) (roomId sid : String)
    (rest : List HistOp) (h : cs.redoStack = HistOp.add sid :: rest) :
    (redo cs roomId).2 = [] ∧
    (redo cs roomId).1.strokes = cs.strokes ∧
    (redo cs roomId).1.undoStack = HistOp.add sid :: cs.undoStack ∧
    (redo cs roomId).1.redoStack = rest := by
  simp [redo, h]

/-- C10 witness: redoing a lone `add "a"` entry changes only the stacks. -/
theorem redo_add_reapplies_nothing_witness :
    (redo ⟨[("a", ⟨"a", "#000000", 5, []⟩)], [], [HistOp.add "a"]⟩ "R").2
        = [] ∧
    (redo ⟨[("a", ⟨"a", "#000000", 5, []⟩)], [], [HistOp.add "a"]⟩ "R").1.strokes
        = [("a", ⟨"a", "#000000", 5, []⟩)] ∧
    (redo ⟨[("a", ⟨"a", "#000000", 5, []⟩)], [], [HistOp.add "a"]⟩ "R").1.undoStack
        = [HistOp.add "a"] ∧
    (redo ⟨[("a", ⟨"a", "#000000", 5, []⟩)], [], [HistOp.add "a"]⟩ "R").1.redoStack
        = [] :=
  redo_add_reapplies_nothing
    ⟨[("a", ⟨"a", "#000000", 5, []⟩)], [], [HistOp.add "a"]⟩ "R" "a" [] rfl
